import Mathlib

/-!
Verification of the `hysteria2-python` binding shim and the specified client
core it starts.

Part 1 embeds `src/hysteria2.cpp` shallowly: the C++ function `startFromJSON`
is modelled as the sequence of observable events it performs (GIL transitions
and the single FFI call), and the `PYBIND11_MODULE(hysteria2, m)` block is
modelled as the module-definition record it builds.

Part 2 models the client core (Session Manager, Authentication Negotiator,
Congestion Controller, Stream Multiplexer, Obfuscator) from the spec, since
that code is linked in from outside the bound sources.
-/

namespace Hysteria2

/-- The cgo `GoString` value built by `startFromJSON`: a data pointer (modelled
as the byte list it points to) and a `ptrdiff_t` length. -/
structure GoString where
  p : List Nat
  n : Int
  deriving DecidableEq, Repr

/-- Observable events of the binding function: GIL releases/acquires and the
call into / return from the exported entry point `startClientFromJSON`. -/
inductive BindEvent where
  | gilRelease
  | gilAcquire
  | callStart (g : GoString)
  | callReturn
  deriving DecidableEq, Repr

/-- Shallow embedding of `startFromJSON(const std::string& json)` from
`src/hysteria2.cpp`: it builds `GoString{json.data(), json.size()}`, then in an
inner block constructs `py::gil_scoped_release` (releases the GIL), calls
`startClientFromJSON(jsonString)`, constructs `py::gil_scoped_acquire`
(re-acquires the GIL); at block exit the destructors run in reverse order:
`~gil_scoped_acquire` releases, `~gil_scoped_release` re-acquires. The result
is the trace of observable events, in program order. -/
def startFromJSON (json : List Nat) : List BindEvent :=
  let jsonString : GoString := ⟨json, (json.length : Int)⟩
  [ BindEvent.gilRelease,
    BindEvent.callStart jsonString,
    BindEvent.callReturn,
    BindEvent.gilAcquire,
    BindEvent.gilRelease,
    BindEvent.gilAcquire ]

/-- GIL recursion depth after processing a list of events, starting from a
given depth (`1` = held once, `0` = released). -/
def gilDepth (d : Int) : List BindEvent → Int
  | [] => d
  | BindEvent.gilRelease :: es => gilDepth (d - 1) es
  | BindEvent.gilAcquire :: es => gilDepth (d + 1) es
  | BindEvent.callStart _ :: es => gilDepth d es
  | BindEvent.callReturn :: es => gilDepth d es

/-- Extracts the argument of a `callStart` event, if any. -/
def callArg : BindEvent → Option GoString
  | BindEvent.callStart g => some g
  | _ => none

/-- Claim C1: `startFromJSON` invokes `startClientFromJSON` exactly once,
passing a `GoString` whose data is the configuration bytes verbatim and whose
length is `json.size()`; the call starts at trace position 1, returns at
position 2, and the function returns only afterwards (the remaining trace is
the GIL epilogue, containing no further call). -/
theorem startFromJSON_calls_entry_once_verbatim (json : List Nat) :
    (startFromJSON json).filterMap callArg = [⟨json, (json.length : Int)⟩] ∧
    (startFromJSON json).get? 1 = some (BindEvent.callStart ⟨json, (json.length : Int)⟩) ∧
    (startFromJSON json).get? 2 = some BindEvent.callReturn ∧
    ((startFromJSON json).drop 3).filterMap callArg = [] := by
  refine ⟨rfl, rfl, rfl, rfl⟩

/-- Claim C2: starting with the GIL held (depth 1), the GIL is released
(depth 0) at the moment `startClientFromJSON` is invoked and is still released
when that call returns; the first event restoring the GIL comes strictly after
the `callReturn` event. -/
theorem gil_released_during_call (json : List Nat) :
    gilDepth 1 ((startFromJSON json).take 1) = 0 ∧
    (startFromJSON json).get? 1 = some (BindEvent.callStart ⟨json, (json.length : Int)⟩) ∧
    gilDepth 1 ((startFromJSON json).take 2) = 0 ∧
    (startFromJSON json).get? 2 = some BindEvent.callReturn ∧
    gilDepth 1 ((startFromJSON json).take 3) = 0 ∧
    (startFromJSON json).get? 3 = some BindEvent.gilAcquire ∧
    gilDepth 1 ((startFromJSON json).take 4) = 1 := by
  refine ⟨rfl, rfl, rfl, rfl, rfl, rfl, rfl⟩

/-- Claim C10: the GIL manipulations of `startFromJSON` are balanced: the
number of releases equals the number of acquires, the GIL depth on return
equals the depth on entry (in particular, entering with the GIL held once, the
function returns with it held exactly once, never still released and never
acquired an extra time), and the depth never goes below 0 from entry depth 1. -/
theorem gil_balanced_on_return (json : List Nat) :
    (startFromJSON json).count BindEvent.gilRelease
      = (startFromJSON json).count BindEvent.gilAcquire ∧
    (∀ d : Int, gilDepth d (startFromJSON json) = d) ∧
    gilDepth 1 (startFromJSON json) = 1 ∧
    (∀ k, 0 ≤ gilDepth 1 ((startFromJSON json).take k)) := by
  refine ⟨rfl, ?_, rfl, ?_⟩
  · intro d
    simp [startFromJSON, gilDepth]
  · intro k
    match k with
    | 0 => simp [startFromJSON, gilDepth]
    | 1 => simp [startFromJSON, gilDepth]
    | 2 => simp [startFromJSON, gilDepth]
    | 3 => simp [startFromJSON, gilDepth]
    | 4 => simp [startFromJSON, gilDepth]
    | 5 => simp [startFromJSON, gilDepth]
    | (n + 6) => simp [startFromJSON, gilDepth]

/-- Python-level argument types that the pybind11 binding can declare. -/
inductive PyTy where
  | str
  deriving DecidableEq, Repr

/-- One declared keyword argument of a bound function. -/
structure PyArg where
  argName : String
  ty : PyTy
  deriving DecidableEq, Repr

/-- One function registered on the module via `m.def`. -/
structure ModuleFunc where
  fname : String
  doc : String
  args : List PyArg
  deriving DecidableEq, Repr

/-- A compiled pybind11 module: its name, its registered functions and its
string attributes. -/
structure PyModule where
  modName : String
  funcs : List ModuleFunc
  attrs : List (String × String)
  deriving DecidableEq, Repr

/-- Shallow embedding of `PYBIND11_MODULE(hysteria2, m)` from
`src/hysteria2.cpp`: it registers the single function `startFromJSON` (whose
C++ parameter `const std::string& json` maps to a Python `str` keyword
argument `json`) and sets `m.attr("__version__") = "2.7.0"`. -/
def hysteria2Module : PyModule :=
  { modName := "hysteria2",
    funcs := [ { fname := "startFromJSON",
                 doc := "Start Hysteria2 client with JSON",
                 args := [ { argName := "json", ty := PyTy.str } ] } ],
    attrs := [("__version__", "2.7.0")] }

/-- Claim C9: the compiled module is named `hysteria2`, exposes exactly one
function, `startFromJSON`, whose single parameter is the keyword argument
`json` of string type, and carries `__version__ = "2.7.0"`. -/
theorem module_shape :
    hysteria2Module.modName = "hysteria2" ∧
    hysteria2Module.funcs.length = 1 ∧
    hysteria2Module.funcs.map ModuleFunc.fname = ["startFromJSON"] ∧
    (hysteria2Module.funcs.map ModuleFunc.args)
      = [[{ argName := "json", ty := PyTy.str }]] ∧
    hysteria2Module.attrs.lookup "__version__" = some "2.7.0" := by
  refine ⟨rfl, rfl, rfl, rfl, rfl⟩

/-- Modelled from the spec: the Obfuscator keystream, an XOR-based salting
keyed by a shared value — byte `i` of the stream is byte `i mod |key|` of the
shared key (`0` for an empty key). The client core implementing the Obfuscator
is linked in from outside the bound sources. -/
def keystream (key : List Nat) (i : Nat) : Nat :=
  key.getD (i % key.length) 0

/-- Modelled from the spec: the Obfuscator applies the keyed XOR transformation
position-wise, starting at stream position `i`. -/
def obfAux (key : List Nat) (i : Nat) : List Nat → List Nat
  | [] => []
  | b :: rest => (b ^^^ keystream key i) :: obfAux key (i + 1) rest

/-- Modelled from the spec: `wrapPayload` applied to outbound bytes — a
deterministic, reversible, length-preserving keyed XOR of the payload. -/
def obfuscate (key : List Nat) (x : List Nat) : List Nat :=
  obfAux key 0 x

/-- Modelled from the spec: the inverse transformation applied to inbound
bytes; XOR with the same keystream removes the obfuscation. -/
def deobfuscate (key : List Nat) (y : List Nat) : List Nat :=
  obfAux key 0 y

theorem obfAux_obfAux (key : List Nat) (i : Nat) (x : List Nat) :
    obfAux key i (obfAux key i x) = x := by
  induction x generalizing i with
  | nil => rfl
  | cons b rest ih =>
      simp [obfAux, Nat.xor_cancel_right, ih]

theorem obfAux_length (key : List Nat) (i : Nat) (x : List Nat) :
    (obfAux key i x).length = x.length := by
  induction x generalizing i with
  | nil => rfl
  | cons b rest ih => simp [obfAux, ih]

/-- Claim C3: for every byte payload `x` (the zero-length payload included)
and every shared key, the obfuscator's transformations are mutually inverse:
`obfuscate (deobfuscate x) = x` and `deobfuscate (obfuscate x) = x`; both are
deterministic (they are functions of key and payload alone) and preserve the
payload length, so frame boundaries are unchanged. -/
theorem obfuscate_roundtrip (key x : List Nat) :
    obfuscate key (deobfuscate key x) = x ∧
    deobfuscate key (obfuscate key x) = x ∧
    (obfuscate key x).length = x.length := by
  exact ⟨obfAux_obfAux key 0 x, obfAux_obfAux key 0 x, obfAux_length key 0 x⟩

/-- Outcome of one connection attempt, as seen by the Session Manager's retry
loop: a transport-level failure (retryable), a rejection by the Authentication
Negotiator (non-retryable), or an accepted authentication. -/
inductive AttemptOutcome where
  | transportError
  | authRejected
  | accepted
  deriving DecidableEq, Repr

/-- The error taxonomy of the spec, restricted to what the retry loop can
surface: a non-retryable `AuthError` or a `ConnectError` after retries are
exhausted. -/
inductive ClientError where
  | authError
  | connectError
  deriving DecidableEq, Repr

/-- Modelled from the spec: the Session Manager's connect/retry loop, driven
by a script of attempt outcomes (the environment). Transport errors are
retried; an authentication rejection is surfaced immediately as a
non-retryable `AuthError`; an accepted attempt succeeds. Returns the number of
connection attempts performed together with the result. The Session Manager
itself is linked in from outside the bound sources. -/
def acquireLoop : List AttemptOutcome → Nat × Except ClientError Unit
  | [] => (0, Except.error ClientError.connectError)
  | AttemptOutcome.transportError :: rest =>
      let r := acquireLoop rest
      (r.1 + 1, r.2)
  | AttemptOutcome.authRejected :: _ => (1, Except.error ClientError.authError)
  | AttemptOutcome.accepted :: _ => (1, Except.ok ())

/-- Claim C4: whenever the server rejects authentication (attempt `i` of the
script is a rejection, every earlier attempt being a transport error), the
loop surfaces the non-retryable `AuthError` having performed exactly `i + 1`
attempts — zero further retry-driven reconnect attempts after the rejection,
hence at most one; the rejection is never treated as a retryable
transport-level failure. -/
theorem auth_reject_not_retried (script : List AttemptOutcome) (i : Nat)
    (hi : script.get? i = some AttemptOutcome.authRejected)
    (hj : ∀ j < i, script.get? j = some AttemptOutcome.transportError) :
    acquireLoop script = (i + 1, Except.error ClientError.authError) := by
  induction script generalizing i with
  | nil => simp at hi
  | cons a rest ih =>
      cases i with
      | zero =>
          simp at hi
          subst hi
          rfl
      | succ n =>
          have ha : a = AttemptOutcome.transportError := by
            have := hj 0 (Nat.succ_pos n)
            simpa using this
          subst ha
          have h1 : rest.get? n = some AttemptOutcome.authRejected := by
            simpa using hi
          have h2 : ∀ j < n, rest.get? j = some AttemptOutcome.transportError := by
            intro j hjn
            have := hj (j + 1) (Nat.succ_lt_succ hjn)
            simpa using this
          have := ih n h1 h2
          simp [acquireLoop, this]

/-- Witness for C4: on the script "transport error, then rejection", the loop
stops after the second attempt with `AuthError`. -/
theorem auth_reject_not_retried_witness :
    acquireLoop [AttemptOutcome.transportError, AttemptOutcome.authRejected]
      = (2, Except.error ClientError.authError) :=
  auth_reject_not_retried
    [AttemptOutcome.transportError, AttemptOutcome.authRejected] 1
    (by decide) (by decide)

/-- Modelled from the spec: per-Session congestion state — current send
window, estimated round-trip time, and loss/ack counters. Mutated only by the
Congestion Controller; one instance per Session, discarded with it. -/
structure CongestionState where
  window : Nat
  rttEstimate : Nat
  ackCount : Nat
  lossCount : Nat
  deriving DecidableEq, Repr

/-- Modelled from the spec: the initial slow-start send window of the
loss-based fallback controller. -/
def initialWindow : Nat := 16

/-- Modelled from the spec: the window ceiling of the loss-based fallback
controller. -/
def maxWindow : Nat := 1024

/-- Modelled from the spec: the initial slow-start parameters a fresh
Session's controller starts from. -/
def initCongestion : CongestionState :=
  { window := initialWindow, rttEstimate := 0, ackCount := 0, lossCount := 0 }

/-- Modelled from the spec: the health state of the current Session. -/
inductive Health where
  | noSession
  | connecting
  | authenticating
  | active
  | failed
  deriving DecidableEq, Repr

/-- Modelled from the spec: one multiplexed logical connection over a Session;
`session` is the generation number of the Session that created the handle, set
at creation and never mutated. -/
structure StreamHandle where
  id : Nat
  session : Nat
  deriving DecidableEq, Repr

/-- Modelled from the spec: one local UDP conversation multiplexed as framed
messages inside the Session's shared stream; `session` is the generation
number of the creating Session. -/
structure UDPFlow where
  id : Nat
  session : Nat
  deriving DecidableEq, Repr

/-- Modelled from the spec: the state shared by the Transport Session Manager,
the Congestion Controller and the Stream Multiplexer. `gen` numbers Session
generations (each replacement increments it), `authedGens` records the
generations whose authentication completed successfully, `streams`/`flows` are
the currently open handles, and `returned` accumulates every StreamHandle ever
returned to a caller of `openStream`. -/
structure MuxState where
  gen : Nat
  health : Health
  authedGens : List Nat
  congestion : CongestionState
  streams : List StreamHandle
  flows : List UDPFlow
  returned : List StreamHandle
  nextSid : Nat
  nextFid : Nat
  deriving DecidableEq, Repr

/-- Modelled from the spec: the state before any session is established. -/
def initState : MuxState :=
  { gen := 0, health := Health.noSession, authedGens := [],
    congestion := initCongestion, streams := [], flows := [],
    returned := [], nextSid := 0, nextFid := 0 }

/-- Commands driving the client core: Session Manager transitions, the
Authentication Negotiator's verdicts, Stream Multiplexer operations, and
Congestion Controller events. -/
inductive Cmd where
  | connect
  | connectOk
  | authAccept
  | authReject
  | openStream
  | openUDPFlow
  | closeStream (sid : Nat)
  | streamFail (sid : Nat)
  | closeFlow (fid : Nat)
  | ack (rtt : Nat)
  | loss
  | sessionFail
  deriving DecidableEq, Repr

/-- Modelled from the spec: one transition of the client core.
`connect` replaces a missing or failed Session by a fresh generation whose
congestion state is reset to the initial slow-start parameters; `connectOk`
hands the raw connection to the Authentication Negotiator; `authAccept`
publishes the Session as Active recording its generation as authenticated;
`authReject` counts as a connection failure; `openStream`/`openUDPFlow`
create handles bound to the current generation only while Active;
`closeStream`/`streamFail`/`closeFlow` remove exactly the named handle and
nothing else; `ack`/`loss` mutate only the congestion state (loss-based
fallback: double up to the ceiling on ack, halve on loss); `sessionFail`
fails the Session, closing all its handles. -/
def step (s : MuxState) : Cmd → MuxState
  | Cmd.connect =>
      if s.health = Health.noSession ∨ s.health = Health.failed then
        { s with gen := s.gen + 1, health := Health.connecting,
                 congestion := initCongestion }
      else s
  | Cmd.connectOk =>
      if s.health = Health.connecting then
        { s with health := Health.authenticating }
      else s
  | Cmd.authAccept =>
      if s.health = Health.authenticating then
        { s with health := Health.active, authedGens := s.gen :: s.authedGens }
      else s
  | Cmd.authReject =>
      if s.health = Health.authenticating then
        { s with health := Health.failed }
      else s
  | Cmd.openStream =>
      if s.health = Health.active then
        { s with streams := ⟨s.nextSid, s.gen⟩ :: s.streams,
                 returned := ⟨s.nextSid, s.gen⟩ :: s.returned,
                 nextSid := s.nextSid + 1 }
      else s
  | Cmd.openUDPFlow =>
      if s.health = Health.active then
        { s with flows := ⟨s.nextFid, s.gen⟩ :: s.flows,
                 nextFid := s.nextFid + 1 }
      else s
  | Cmd.closeStream sid =>
      { s with streams := s.streams.filter (fun h => h.id ≠ sid) }
  | Cmd.streamFail sid =>
      { s with streams := s.streams.filter (fun h => h.id ≠ sid) }
  | Cmd.closeFlow fid =>
      { s with flows := s.flows.filter (fun f => f.id ≠ fid) }
  | Cmd.ack rtt =>
      if s.health = Health.active then
        { s with congestion :=
            { window := min (s.congestion.window * 2) maxWindow,
              rttEstimate := rtt,
              ackCount := s.congestion.ackCount + 1,
              lossCount := s.congestion.lossCount } }
      else s
  | Cmd.loss =>
      if s.health = Health.active then
        { s with congestion :=
            { window := max (s.congestion.window / 2) 1,
              rttEstimate := s.congestion.rttEstimate,
              ackCount := s.congestion.ackCount,
              lossCount := s.congestion.lossCount + 1 } }
      else s
  | Cmd.sessionFail =>
      { s with health := Health.failed, streams := [], flows := [] }

/-- Modelled from the spec: the state of the client core after executing a
sequence of commands from the initial state. -/
def run (cmds : List Cmd) : MuxState :=
  cmds.foldl step initState

/-- The reachability invariant of the client core: open handles belong to the
current Session generation, authenticated generations are recorded at most
once and never exceed the current one, an Active session is authenticated, a
session still connecting or authenticating is not yet recorded as
authenticated, every handle ever returned belongs to an authenticated
generation, open stream ids are distinct and below the fresh-id counter, and a
non-Active session has no open handles. -/
structure Inv (s : MuxState) : Prop where
  streams_gen : ∀ h ∈ s.streams, h.session = s.gen
  flows_gen : ∀ f ∈ s.flows, f.session = s.gen
  authed_le : ∀ g ∈ s.authedGens, g ≤ s.gen
  authed_nodup : s.authedGens.Nodup
  active_authed : s.health = Health.active → s.gen ∈ s.authedGens
  pre_active : s.health = Health.connecting ∨ s.health = Health.authenticating →
    s.gen ∉ s.authedGens
  returned_authed : ∀ h ∈ s.returned, h.session ∈ s.authedGens
  sid_nodup : (s.streams.map StreamHandle.id).Nodup
  sid_lt : ∀ h ∈ s.streams, h.id < s.nextSid
  inactive_empty : s.health ≠ Health.active → s.streams = [] ∧ s.flows = []

theorem inv_initState : Inv initState := by
  refine ⟨?_, ?_, ?_, ?_, ?_, ?_, ?_, ?_, ?_, ?_⟩ <;> simp [initState]

theorem inv_step {s : MuxState} (hs : Inv s) : ∀ c : Cmd, Inv (step s c)
  | Cmd.connect => by
      by_cases hc : s.health = Health.noSession ∨ s.health = Health.failed
      · have hne : s.health ≠ Health.active := by
          rcases hc with h | h <;> simp [h]
        obtain ⟨hstr, hfl⟩ := hs.inactive_empty hne
        simp only [step, if_pos hc]
        refine ⟨?_, ?_, ?_, hs.authed_nodup, ?_, ?_, hs.returned_authed, ?_, ?_, ?_⟩
        · simp [hstr]
        · simp [hfl]
        · exact fun g hg => Nat.le_succ_of_le (hs.authed_le g hg)
        · intro h
          simp at h
        · intro _ hmem
          have h2 : s.gen + 1 ≤ s.gen := hs.authed_le _ hmem
          omega
        · simp [hstr]
        · simp [hstr]
        · exact fun _ => ⟨hstr, hfl⟩
      · simpa only [step, if_neg hc] using hs
  | Cmd.connectOk => by
      by_cases hc : s.health = Health.connecting
      · obtain ⟨hstr, hfl⟩ := hs.inactive_empty (by simp [hc])
        simp only [step, if_pos hc]
        refine ⟨hs.streams_gen, hs.flows_gen, hs.authed_le, hs.authed_nodup,
                ?_, ?_, hs.returned_authed, hs.sid_nodup, hs.sid_lt, ?_⟩
        · intro h
          simp at h
        · exact fun _ => hs.pre_active (Or.inl hc)
        · exact fun _ => ⟨hstr, hfl⟩
      · simpa only [step, if_neg hc] using hs
  | Cmd.authAccept => by
      by_cases hc : s.health = Health.authenticating
      · obtain ⟨hstr, hfl⟩ := hs.inactive_empty (by simp [hc])
        simp only [step, if_pos hc]
        refine ⟨hs.streams_gen, hs.flows_gen, ?_, ?_, ?_, ?_, ?_,
                hs.sid_nodup, hs.sid_lt, ?_⟩
        · intro g hg
          rcases List.mem_cons.1 hg with h | h
          · exact h.le
          · exact hs.authed_le g h
        · exact List.nodup_cons.2 ⟨hs.pre_active (Or.inr hc), hs.authed_nodup⟩
        · exact fun _ => List.mem_cons_self _ _
        · rintro (h | h) <;> simp at h
        · exact fun h hm => List.mem_cons_of_mem _ (hs.returned_authed h hm)
        · exact fun h => absurd rfl h
      · simpa only [step, if_neg hc] using hs
  | Cmd.authReject => by
      by_cases hc : s.health = Health.authenticating
      · obtain ⟨hstr, hfl⟩ := hs.inactive_empty (by simp [hc])
        simp only [step, if_pos hc]
        refine ⟨hs.streams_gen, hs.flows_gen, hs.authed_le, hs.authed_nodup,
                ?_, ?_, hs.returned_authed, hs.sid_nodup, hs.sid_lt, ?_⟩
        · intro h
          simp at h
        · rintro (h | h) <;> simp at h
        · exact fun _ => ⟨hstr, hfl⟩
      · simpa only [step, if_neg hc] using hs
  | Cmd.openStream => by
      by_cases hc : s.health = Health.active
      · simp only [step, if_pos hc]
        refine ⟨?_, hs.flows_gen, hs.authed_le, hs.authed_nodup, ?_, ?_, ?_, ?_, ?_, ?_⟩
        · intro h hm
          rcases List.mem_cons.1 hm with h' | h'
          · simp [h']
          · exact hs.streams_gen h h'
        · exact fun _ => hs.active_authed hc
        · rintro (h | h) <;> simp [hc] at h
        · intro h hm
          rcases List.mem_cons.1 hm with h' | h'
          · simpa [h'] using hs.active_authed hc
          · exact hs.returned_authed h h'
        · refine List.nodup_cons.2 ⟨?_, hs.sid_nodup⟩
          intro hmem
          rcases List.mem_map.1 hmem with ⟨h, hm, hid⟩
          have hlt : h.id < s.nextSid := hs.sid_lt h hm
          have hid2 : h.id = s.nextSid := hid
          omega
        · intro h hm
          rcases List.mem_cons.1 hm with h' | h'
          · simp [h']
          · exact Nat.lt_succ_of_lt (hs.sid_lt h h')
        · exact fun h => absurd hc h
      · simpa only [step, if_neg hc] using hs
  | Cmd.openUDPFlow => by
      by_cases hc : s.health = Health.active
      · simp only [step, if_pos hc]
        refine ⟨hs.streams_gen, ?_, hs.authed_le, hs.authed_nodup, ?_, ?_,
                hs.returned_authed, hs.sid_nodup, hs.sid_lt, ?_⟩
        · intro f hm
          rcases List.mem_cons.1 hm with h' | h'
          · simp [h']
          · exact hs.flows_gen f h'
        · exact fun _ => hs.active_authed hc
        · rintro (h | h) <;> simp [hc] at h
        · exact fun h => absurd hc h
      · simpa only [step, if_neg hc] using hs
  | Cmd.closeStream sid => by
      simp only [step]
      refine ⟨?_, hs.flows_gen, hs.authed_le, hs.authed_nodup, hs.active_authed,
              hs.pre_active, hs.returned_authed, ?_, ?_, ?_⟩
      · exact fun h hm => hs.streams_gen h (List.mem_of_mem_filter hm)
      · exact List.Nodup.sublist ((List.filter_sublist _).map _) hs.sid_nodup
      · exact fun h hm => hs.sid_lt h (List.mem_of_mem_filter hm)
      · intro hh
        obtain ⟨h1, h2⟩ := hs.inactive_empty hh
        simp [h1, h2]
  | Cmd.streamFail sid => by
      simp only [step]
      refine ⟨?_, hs.flows_gen, hs.authed_le, hs.authed_nodup, hs.active_authed,
              hs.pre_active, hs.returned_authed, ?_, ?_, ?_⟩
      · exact fun h hm => hs.streams_gen h (List.mem_of_mem_filter hm)
      · exact List.Nodup.sublist ((List.filter_sublist _).map _) hs.sid_nodup
      · exact fun h hm => hs.sid_lt h (List.mem_of_mem_filter hm)
      · intro hh
        obtain ⟨h1, h2⟩ := hs.inactive_empty hh
        simp [h1, h2]
  | Cmd.closeFlow fid => by
      simp only [step]
      refine ⟨hs.streams_gen, ?_, hs.authed_le, hs.authed_nodup, hs.active_authed,
              hs.pre_active, hs.returned_authed, hs.sid_nodup, hs.sid_lt, ?_⟩
      · exact fun f hm => hs.flows_gen f (List.mem_of_mem_filter hm)
      · intro hh
        obtain ⟨h1, h2⟩ := hs.inactive_empty hh
        simp [h1, h2]
  | Cmd.ack rtt => by
      by_cases hc : s.health = Health.active
      · simp only [step, if_pos hc]
        exact ⟨hs.streams_gen, hs.flows_gen, hs.authed_le, hs.authed_nodup,
               hs.active_authed, hs.pre_active, hs.returned_authed,
               hs.sid_nodup, hs.sid_lt, hs.inactive_empty⟩
      · simpa only [step, if_neg hc] using hs
  | Cmd.loss => by
      by_cases hc : s.health = Health.active
      · simp only [step, if_pos hc]
        exact ⟨hs.streams_gen, hs.flows_gen, hs.authed_le, hs.authed_nodup,
               hs.active_authed, hs.pre_active, hs.returned_authed,
               hs.sid_nodup, hs.sid_lt, hs.inactive_empty⟩
      · simpa only [step, if_neg hc] using hs
  | Cmd.sessionFail => by
      simp only [step]
      refine ⟨?_, ?_, hs.authed_le, hs.authed_nodup, ?_, ?_,
              hs.returned_authed, ?_, ?_, ?_⟩
      · simp
      · simp
      · intro h
        simp at h
      · rintro (h | h) <;> simp at h
      · simp
      · simp
      · exact fun _ => ⟨rfl, rfl⟩

theorem inv_foldl (cmds : List Cmd) :
    ∀ s : MuxState, Inv s → Inv (cmds.foldl step s) := by
  induction cmds with
  | nil => exact fun s hs => hs
  | cons c rest ih => exact fun s hs => ih (step s c) (inv_step hs c)

theorem inv_run (cmds : List Cmd) : Inv (run cmds) :=
  inv_foldl cmds initState inv_initState

/-- Claim C5: in every reachable state, every StreamHandle ever returned to a
caller of `openStream` belongs to a Session generation on which exactly one
successful authentication completed; since handles are only created while the
Session is Active, and a Session becomes Active only by recording its single
successful authentication, that authentication completed before the handle was
returned. -/
theorem auth_before_stream_return (cmds : List Cmd) (h : StreamHandle)
    (hm : h ∈ (run cmds).returned) :
    (run cmds).authedGens.count h.session = 1 :=
  List.count_eq_one_of_mem (inv_run cmds).authed_nodup
    ((inv_run cmds).returned_authed h hm)

/-- Witness for C5: after connect, successful authentication and one
`openStream`, the returned handle's Session generation counts exactly one
completed authentication. -/
theorem auth_before_stream_return_witness :
    (⟨0, 1⟩ : StreamHandle) ∈
        (run [Cmd.connect, Cmd.connectOk, Cmd.authAccept, Cmd.openStream]).returned ∧
    (run [Cmd.connect, Cmd.connectOk, Cmd.authAccept,
          Cmd.openStream]).authedGens.count (⟨0, 1⟩ : StreamHandle).session = 1 :=
  ⟨by decide,
   auth_before_stream_return [Cmd.connect, Cmd.connectOk, Cmd.authAccept,
     Cmd.openStream] ⟨0, 1⟩ (by decide)⟩

/-- Claim C6: in every reachable state, every open StreamHandle and UDPFlow
references the Session generation that created it, which is the current one;
moreover no step ever rebinds a handle — after any step, each open handle is
either an unchanged previously open handle or a brand-new one (carrying the
fresh id, hence not previously open), so Session replacement yields entirely
new handles. -/
theorem handles_bound_to_creating_session (cmds : List Cmd) :
    (∀ h ∈ (run cmds).streams, h.session = (run cmds).gen) ∧
    (∀ f ∈ (run cmds).flows, f.session = (run cmds).gen) ∧
    (∀ c : Cmd, ∀ h ∈ (step (run cmds) c).streams,
      h ∈ (run cmds).streams ∨
        (h.id = (run cmds).nextSid ∧ h ∉ (run cmds).streams)) := by
  have hinv := inv_run cmds
  refine ⟨hinv.streams_gen, hinv.flows_gen, ?_⟩
  intro c h hm
  cases c with
  | connect =>
      by_cases hc : (run cmds).health = Health.noSession ∨
          (run cmds).health = Health.failed
      · simp only [step, if_pos hc] at hm
        exact Or.inl hm
      · simp only [step, if_neg hc] at hm
        exact Or.inl hm
  | connectOk =>
      by_cases hc : (run cmds).health = Health.connecting
      · simp only [step, if_pos hc] at hm
        exact Or.inl hm
      · simp only [step, if_neg hc] at hm
        exact Or.inl hm
  | authAccept =>
      by_cases hc : (run cmds).health = Health.authenticating
      · simp only [step, if_pos hc] at hm
        exact Or.inl hm
      · simp only [step, if_neg hc] at hm
        exact Or.inl hm
  | authReject =>
      by_cases hc : (run cmds).health = Health.authenticating
      · simp only [step, if_pos hc] at hm
        exact Or.inl hm
      · simp only [step, if_neg hc] at hm
        exact Or.inl hm
  | openStream =>
      by_cases hc : (run cmds).health = Health.active
      · simp only [step, if_pos hc, List.mem_cons] at hm
        rcases hm with h' | h'
        · refine Or.inr ⟨by simp [h'], ?_⟩
          intro hmem
          have hlt : h.id < (run cmds).nextSid := hinv.sid_lt h hmem
          have hid : h.id = (run cmds).nextSid := by simp [h']
          omega
        · exact Or.inl h'
      · simp only [step, if_neg hc] at hm
        exact Or.inl hm
  | openUDPFlow =>
      by_cases hc : (run cmds).health = Health.active
      · simp only [step, if_pos hc] at hm
        exact Or.inl hm
      · simp only [step, if_neg hc] at hm
        exact Or.inl hm
  | closeStream sid =>
      simp only [step] at hm
      exact Or.inl (List.mem_of_mem_filter hm)
  | streamFail sid =>
      simp only [step] at hm
      exact Or.inl (List.mem_of_mem_filter hm)
  | closeFlow fid =>
      simp only [step] at hm
      exact Or.inl hm
  | ack rtt =>
      by_cases hc : (run cmds).health = Health.active
      · simp only [step, if_pos hc] at hm
        exact Or.inl hm
      · simp only [step, if_neg hc] at hm
        exact Or.inl hm
  | loss =>
      by_cases hc : (run cmds).health = Health.active
      · simp only [step, if_pos hc] at hm
        exact Or.inl hm
      · simp only [step, if_neg hc] at hm
        exact Or.inl hm
  | sessionFail =>
      simp only [step, List.not_mem_nil] at hm

/-- Witness for C6: the handle returned after one `openStream` is open and
references the current (creating) Session generation. -/
theorem handles_bound_to_creating_session_witness :
    (⟨0, 1⟩ : StreamHandle) ∈
        (run [Cmd.connect, Cmd.connectOk, Cmd.authAccept, Cmd.openStream]).streams ∧
    (⟨0, 1⟩ : StreamHandle).session
      = (run [Cmd.connect, Cmd.connectOk, Cmd.authAccept, Cmd.openStream]).gen :=
  ⟨by decide,
   (handles_bound_to_creating_session
      [Cmd.connect, Cmd.connectOk, Cmd.authAccept, Cmd.openStream]).1
     ⟨0, 1⟩ (by decide)⟩

/-- Claim C7: replacing a failed Session by reconnecting yields a new Session
generation whose CongestionState equals the initial slow-start parameters —
initial window, zero RTT estimate, zero ack and loss counters — inheriting
nothing from the failed Session's CongestionState. -/
theorem replacement_resets_congestion (cmds : List Cmd)
    (hf : (run cmds).health = Health.failed) :
    (step (run cmds) Cmd.connect).gen = (run cmds).gen + 1 ∧
    (step (run cmds) Cmd.connect).congestion = initCongestion ∧
    (step (run cmds) Cmd.connect).congestion.window = initialWindow ∧
    (step (run cmds) Cmd.connect).congestion.rttEstimate = 0 ∧
    (step (run cmds) Cmd.connect).congestion.ackCount = 0 ∧
    (step (run cmds) Cmd.connect).congestion.lossCount = 0 := by
  have hc : (run cmds).health = Health.noSession ∨
      (run cmds).health = Health.failed := Or.inr hf
  refine ⟨?_, ?_, ?_, ?_, ?_, ?_⟩ <;>
    simp [step, if_pos hc, initCongestion, initialWindow]

/-- Witness for C7: a Session that saw acks and a loss (so its congestion
state differs from the initial one) then failed; reconnecting installs a fresh
Session whose congestion state is exactly the initial slow-start state. -/
theorem replacement_resets_congestion_witness :
    (run [Cmd.connect, Cmd.connectOk, Cmd.authAccept, Cmd.ack 7, Cmd.loss,
          Cmd.sessionFail]).health = Health.failed ∧
    (run [Cmd.connect, Cmd.connectOk, Cmd.authAccept, Cmd.ack 7, Cmd.loss,
          Cmd.sessionFail]).congestion ≠ initCongestion ∧
    (step (run [Cmd.connect, Cmd.connectOk, Cmd.authAccept, Cmd.ack 7, Cmd.loss,
          Cmd.sessionFail]) Cmd.connect).congestion = initCongestion :=
  ⟨by decide, by decide,
   (replacement_resets_congestion [Cmd.connect, Cmd.connectOk, Cmd.authAccept,
      Cmd.ack 7, Cmd.loss, Cmd.sessionFail] (by decide)).2.1⟩

/-- Claim C8: for two distinct open handles on the same Session, closing one
(or its per-stream failure) removes only that handle: the other StreamHandle
stays open, every UDPFlow is untouched, and the Session itself (health and
generation) is not torn down. -/
theorem stream_close_isolated (cmds : List Cmd) (h1 h2 : StreamHandle)
    (hm1 : h1 ∈ (run cmds).streams) (hm2 : h2 ∈ (run cmds).streams)
    (hne : h1 ≠ h2) :
    h2 ∈ (step (run cmds) (Cmd.closeStream h1.id)).streams ∧
    (step (run cmds) (Cmd.closeStream h1.id)).flows = (run cmds).flows ∧
    (step (run cmds) (Cmd.closeStream h1.id)).health = (run cmds).health ∧
    (step (run cmds) (Cmd.closeStream h1.id)).gen = (run cmds).gen ∧
    h2 ∈ (step (run cmds) (Cmd.streamFail h1.id)).streams ∧
    (step (run cmds) (Cmd.streamFail h1.id)).flows = (run cmds).flows ∧
    (step (run cmds) (Cmd.streamFail h1.id)).health = (run cmds).health ∧
    (step (run cmds) (Cmd.streamFail h1.id)).gen = (run cmds).gen := by
  have hid : h2.id ≠ h1.id := by
    intro he
    exact hne (List.inj_on_of_nodup_map (inv_run cmds).sid_nodup hm1 hm2 he.symm)
  have hmem : h2 ∈ (run cmds).streams.filter (fun h => h.id ≠ h1.id) :=
    List.mem_filter.2 ⟨hm2, by simpa using hid⟩
  exact ⟨hmem, rfl, rfl, rfl, hmem, rfl, rfl, rfl⟩

/-- Witness for C8: with two streams and one UDP flow open, closing the first
stream leaves the second stream open and the flow list, health and generation
unchanged. -/
theorem stream_close_isolated_witness :
    (⟨0, 1⟩ : StreamHandle) ∈
        (run [Cmd.connect, Cmd.connectOk, Cmd.authAccept, Cmd.openStream,
              Cmd.openStream, Cmd.openUDPFlow]).streams ∧
    (⟨1, 1⟩ : StreamHandle) ∈
        (run [Cmd.connect, Cmd.connectOk, Cmd.authAccept, Cmd.openStream,
              Cmd.openStream, Cmd.openUDPFlow]).streams ∧
    (⟨1, 1⟩ : StreamHandle) ∈
        (step (run [Cmd.connect, Cmd.connectOk, Cmd.authAccept, Cmd.openStream,
              Cmd.openStream, Cmd.openUDPFlow])
          (Cmd.closeStream (⟨0, 1⟩ : StreamHandle).id)).streams ∧
    (step (run [Cmd.connect, Cmd.connectOk, Cmd.authAccept, Cmd.openStream,
              Cmd.openStream, Cmd.openUDPFlow])
        (Cmd.closeStream (⟨0, 1⟩ : StreamHandle).id)).flows
      = (run [Cmd.connect, Cmd.connectOk, Cmd.authAccept, Cmd.openStream,
              Cmd.openStream, Cmd.openUDPFlow]).flows :=
  ⟨by decide, by decide,
   (stream_close_isolated [Cmd.connect, Cmd.connectOk, Cmd.authAccept,
      Cmd.openStream, Cmd.openStream, Cmd.openUDPFlow] ⟨0, 1⟩ ⟨1, 1⟩
      (by decide) (by decide) (by decide)).1,
   (stream_close_isolated [Cmd.connect, Cmd.connectOk, Cmd.authAccept,
      Cmd.openStream, Cmd.openStream, Cmd.openUDPFlow] ⟨0, 1⟩ ⟨1, 1⟩
      (by decide) (by decide) (by decide)).2.1⟩

end Hysteria2
